import Mathlib

/-!
Verification of the NEAT read simulator against its specification.

Shallow embedding of the relevant parts of `genReads.py` and
`neat/read_simulator/utils/output_file_writer.py`.  Python integers are
modelled as `Int` (arbitrary precision, `//` is floor division, `>>` is an
arithmetic shift, i.e. floor division by a power of two) or, where a value
is structurally non-negative, as `Nat`.  Python floats appearing in the
read-count formula are modelled as exact rationals `ℚ`; `int(x)` is
truncation toward zero.
-/

/-! ## reg2bin (output_file_writer.py lines 43-65) -/

/-- Python's `a >> k` on an int: arithmetic shift = floor division by `2^k`. -/
def pyShiftR (a : Int) (k : Nat) : Int := Int.fdiv a (2 ^ k)

/-- `reg2bin(beg, end)` from `output_file_writer.py`:
`end -= 1` followed by the ladder of shift comparisons.  `//` in Python is
floor division (`Int.fdiv`); all the bin-base constants are positive so the
floor division agrees with truncation there. -/
def reg2bin (beg e : Int) : Int :=
  let e1 := e - 1
  if pyShiftR beg 14 = pyShiftR e1 14 then Int.fdiv ((2 ^ 15 : Int) - 1) 7 + pyShiftR beg 14
  else if pyShiftR beg 17 = pyShiftR e1 17 then Int.fdiv ((2 ^ 12 : Int) - 1) 7 + pyShiftR beg 17
  else if pyShiftR beg 20 = pyShiftR e1 20 then Int.fdiv ((2 ^ 9 : Int) - 1) 7 + pyShiftR beg 20
  else if pyShiftR beg 23 = pyShiftR e1 23 then Int.fdiv ((2 ^ 6 : Int) - 1) 7 + pyShiftR beg 23
  else if pyShiftR beg 26 = pyShiftR e1 26 then Int.fdiv ((2 ^ 3 : Int) - 1) 7 + pyShiftR beg 26
  else 0

/-- On non-negative begin positions every branch of `reg2bin` is non-negative. -/
theorem reg2bin_nonneg (beg e : Int) (h : 0 ≤ beg) : 0 ≤ reg2bin beg e := by
  have hb : ∀ k : Nat, 0 ≤ pyShiftR beg k := fun k => Int.fdiv_nonneg h (by positivity)
  simp only [reg2bin]
  split_ifs
  · exact add_nonneg (by decide) (hb 14)
  · exact add_nonneg (by decide) (hb 17)
  · exact add_nonneg (by decide) (hb 20)
  · exact add_nonneg (by decide) (hb 23)
  · exact add_nonneg (by decide) (hb 26)
  · exact le_refl 0

/-- C1, counterexample: the claimed value `reg2bin(0, 1) == 4680` is false on
the code; the first ladder rung fires and yields `((1<<15)-1)//7 = 4681`. -/
theorem reg2bin_zero_one_ne_4680 : reg2bin 0 1 ≠ 4680 := by decide

/-- C1 (amended): `reg2bin` decrements `end` and applies the documented shift
ladder with bin bases `((1<<15)-1)//7`, `((1<<12)-1)//7`, `((1<<9)-1)//7`,
`((1<<6)-1)//7`, `((1<<3)-1)//7`, else bin 0; in particular
`reg2bin(0, 1) = 4681` (not 4680) and `reg2bin(0, 1<<29) = 0`. -/
theorem reg2bin_ladder :
    (∀ beg e : Int, pyShiftR beg 14 = pyShiftR (e - 1) 14 →
      reg2bin beg e = Int.fdiv ((2 ^ 15 : Int) - 1) 7 + pyShiftR beg 14) ∧
    (∀ beg e : Int, pyShiftR beg 14 ≠ pyShiftR (e - 1) 14 →
      pyShiftR beg 17 = pyShiftR (e - 1) 17 →
      reg2bin beg e = Int.fdiv ((2 ^ 12 : Int) - 1) 7 + pyShiftR beg 17) ∧
    (∀ beg e : Int, pyShiftR beg 14 ≠ pyShiftR (e - 1) 14 →
      pyShiftR beg 17 ≠ pyShiftR (e - 1) 17 →
      pyShiftR beg 20 = pyShiftR (e - 1) 20 →
      reg2bin beg e = Int.fdiv ((2 ^ 9 : Int) - 1) 7 + pyShiftR beg 20) ∧
    (∀ beg e : Int, pyShiftR beg 14 ≠ pyShiftR (e - 1) 14 →
      pyShiftR beg 17 ≠ pyShiftR (e - 1) 17 →
      pyShiftR beg 20 ≠ pyShiftR (e - 1) 20 →
      pyShiftR beg 23 = pyShiftR (e - 1) 23 →
      reg2bin beg e = Int.fdiv ((2 ^ 6 : Int) - 1) 7 + pyShiftR beg 23) ∧
    (∀ beg e : Int, pyShiftR beg 14 ≠ pyShiftR (e - 1) 14 →
      pyShiftR beg 17 ≠ pyShiftR (e - 1) 17 →
      pyShiftR beg 20 ≠ pyShiftR (e - 1) 20 →
      pyShiftR beg 23 ≠ pyShiftR (e - 1) 23 →
      pyShiftR beg 26 = pyShiftR (e - 1) 26 →
      reg2bin beg e = Int.fdiv ((2 ^ 3 : Int) - 1) 7 + pyShiftR beg 26) ∧
    (∀ beg e : Int, pyShiftR beg 14 ≠ pyShiftR (e - 1) 14 →
      pyShiftR beg 17 ≠ pyShiftR (e - 1) 17 →
      pyShiftR beg 20 ≠ pyShiftR (e - 1) 20 →
      pyShiftR beg 23 ≠ pyShiftR (e - 1) 23 →
      pyShiftR beg 26 ≠ pyShiftR (e - 1) 26 →
      reg2bin beg e = 0) ∧
    reg2bin 0 1 = 4681 ∧ reg2bin 0 (2 ^ 29) = 0 := by
  refine ⟨?_, ?_, ?_, ?_, ?_, ?_, by decide, by decide⟩ <;>
    · intro beg e
      intros
      simp only [reg2bin]
      split_ifs <;> first | rfl | tauto

/-- C1 witness: the first ladder rung applies at `beg = 0, e = 1` and
produces bin 4681. -/
theorem reg2bin_ladder_witness :
    pyShiftR 0 14 = pyShiftR ((1 : Int) - 1) 14 ∧
    reg2bin 0 1 = Int.fdiv ((2 ^ 15 : Int) - 1) 7 + pyShiftR 0 14 :=
  ⟨by decide, reg2bin_ladder.1 0 1 (by decide)⟩

/-! ## Read-count formula and low-coverage skip (genReads.py lines 513-548, 580-588) -/

/-- `LOW_COV_THRESH` from `genReads.py` line 95. -/
def LOW_COV_THRESH : ℚ := 50

/-- Python's `int(x)` on a float value: truncation toward zero, modelled on
exact rationals. -/
def pyInt (q : ℚ) : ℤ := if 0 ≤ q then ⌊q⌋ else ⌈q⌉

/-- `readsToSample` computation, genReads.py lines 580-588: the `floor(...)+1`
formula followed by the `readsToSample == 1 and sum < LOW_COV_THRESH`
zero-back-out branch. -/
def readsToSample (pairedEnd : Bool) (winLen readLen : ℕ) (coverage covAvg covSum : ℚ) : ℤ :=
  let raw : ℤ :=
    (if pairedEnd then pyInt ((winLen * coverage * covAvg) / (2 * readLen))
     else pyInt ((winLen * coverage * covAvg) / readLen)) + 1
  if raw = 1 ∧ covSum < LOW_COV_THRESH then 0 else raw

/-- Number of reads sampled from one window at the driver level,
genReads.py lines 513-548 and 577-588: a window whose summed coverage-weight
array is below `LOW_COV_THRESH`, or which is smaller than the minimum viable
window size, is skipped (`skip_this_window`) before any sampling; the
VCF-only fast path samples nothing; otherwise `readsToSample` many reads are
sampled. -/
def windowSampledReads (onlyVcf pairedEnd : Bool) (winLen readLen minWin : ℕ)
    (coverage covAvg covSum : ℚ) : ℤ :=
  if covSum < LOW_COV_THRESH ∨ winLen < minWin then 0
  else if onlyVcf then 0
  else readsToSample pairedEnd winLen readLen coverage covAvg covSum

/-- C3: in a read-generating run, a non-skipped window samples exactly
`floor((winLen * coverage * covAvg) / (2 * readLen)) + 1` reads (paired) or
`floor((winLen * coverage * covAvg) / readLen) + 1` (single), and any window
whose summed coverage-weight array is below `LOW_COV_THRESH = 50` samples
zero reads. -/
theorem windowSampledReads_spec (pairedEnd : Bool) (winLen readLen minWin : ℕ)
    (coverage covAvg covSum : ℚ) (hcov : 0 ≤ coverage) (havg : 0 ≤ covAvg) :
    (covSum < LOW_COV_THRESH →
      windowSampledReads false pairedEnd winLen readLen minWin coverage covAvg covSum = 0) ∧
    (LOW_COV_THRESH ≤ covSum → ¬ winLen < minWin →
      windowSampledReads false pairedEnd winLen readLen minWin coverage covAvg covSum =
        (if pairedEnd then ⌊(winLen * coverage * covAvg) / (2 * readLen)⌋
         else ⌊(winLen * coverage * covAvg) / readLen⌋) + 1) := by
  have hnum : (0 : ℚ) ≤ winLen * coverage * covAvg := by positivity
  constructor
  · intro hlow
    simp [windowSampledReads, hlow]
  · intro hge hwin
    have hnotlow : ¬ covSum < LOW_COV_THRESH := not_lt.mpr hge
    have h1 : pyInt ((winLen * coverage * covAvg) / (2 * readLen)) =
        ⌊(winLen * coverage * covAvg) / (2 * readLen)⌋ := by
      unfold pyInt
      rw [if_pos (by positivity)]
    have h2 : pyInt ((winLen * coverage * covAvg) / readLen) =
        ⌊(winLen * coverage * covAvg) / readLen⌋ := by
      unfold pyInt
      rw [if_pos (by positivity)]
    simp only [windowSampledReads, readsToSample, hnotlow, hwin, or_self, if_false,
      Bool.false_eq_true, and_false, false_and, if_neg, not_false_eq_true]
    cases pairedEnd <;> simp [h1, h2, hnotlow]

/-- C3 witness: the spec's own example, a single-end window of length 1000,
read length 100, coverage 10, coverage_avg 1, summed weights 1000: the window
samples `floor(1000*10*1/100) + 1 = 101` reads. -/
theorem windowSampledReads_witness :
    (LOW_COV_THRESH ≤ (1000 : ℚ) ∧ ¬ (1000 : ℕ) < 110) ∧
    windowSampledReads false false 1000 100 110 10 1 1000 = 101 := by
  refine ⟨⟨by norm_num [LOW_COV_THRESH], by norm_num⟩, ?_⟩
  have h := (windowSampledReads_spec false 1000 100 110 10 1 1000 (by norm_num)
    (by norm_num)).2 (by norm_num [LOW_COV_THRESH]) (by norm_num)
  rw [h]
  norm_num

/-! ## Read naming (genReads.py lines 620-625) -/

/-- `myReadName` construction from genReads.py lines 620-625: multi-job runs
insert a `-j<job>` segment and an `-r` prefix before the counter; single-job
runs join prefix, contig and counter with plain dashes. -/
def myReadName (outPrefixName contig : String) (njobs myjob readNameCount : ℕ) : String :=
  if njobs > 1 then
    outPrefixName ++ "-j" ++ toString myjob ++ "-" ++ contig ++ "-r" ++ toString readNameCount
  else
    outPrefixName ++ "-" ++ contig ++ "-" ++ toString readNameCount

/-- C4, counterexample: in single-job mode the generated name has no literal
`r` before the sequential counter, contradicting the claimed
`<prefix>-<contig>-r<counter>` shape. -/
theorem myReadName_single_job_counterexample :
    myReadName "out" "chr1" 1 1 5 = "out-chr1-5" ∧
    myReadName "out" "chr1" 1 1 5 ≠ "out-chr1-r5" := by
  constructor
  · rfl
  · decide

/-- C4 (amended): multi-job names are
`<prefix>-j<job>-<contig>-r<counter>`; single-job names are
`<prefix>-<contig>-<counter>` with no `r` segment. -/
theorem myReadName_spec (outPrefixName contig : String) (njobs myjob readNameCount : ℕ) :
    (njobs > 1 → myReadName outPrefixName contig njobs myjob readNameCount =
      outPrefixName ++ "-j" ++ toString myjob ++ "-" ++ contig ++ "-r" ++
        toString readNameCount) ∧
    (njobs ≤ 1 → myReadName outPrefixName contig njobs myjob readNameCount =
      outPrefixName ++ "-" ++ contig ++ "-" ++ toString readNameCount) := by
  constructor
  · intro h
    simp [myReadName, h]
  · intro h
    have : ¬ njobs > 1 := by omega
    simp [myReadName, this]

/-- C4 witness: a multi-job name at job 2 of 4 carries both the `-j` and `-r`
segments. -/
theorem myReadName_spec_witness :
    (2 : ℕ) > 1 ∧ myReadName "out" "chr1" 2 2 7 = "out-j2-chr1-r7" := by
  refine ⟨by norm_num, ?_⟩
  rw [(myReadName_spec "out" "chr1" 2 2 7).1 (by norm_num)]
  rfl

/-! ## VCF coordinate round-trip (genReads.py lines 459-471 and 712-721) -/

/-- The in-window variant gathering loop, genReads.py lines 462-470: variants
with `start < vPos < end` are converted from 1-based VCF coordinates to
0-based array coordinates (`vPos - 1`); the loop breaks at the first variant
with `vPos >= end`.  The non-positional payload is abstracted as `α`. -/
def varsInWindow {α : Type} (start e : ℤ) : List (ℤ × α) → List (ℤ × α)
  | [] => []
  | v :: rest =>
    let here := if start < v.1 ∧ v.1 < e then [(v.1 - 1, v.2)] else []
    if v.1 ≥ e then here else here ++ varsInWindow start e rest

/-- VCF output position, genReads.py line 721: `str(int(k[0]) + 1)` converts
the stored 0-based coordinate back to 1-based. -/
def writeVcfPos (k0 : ℤ) : ℤ := k0 + 1

/-- C9: every stored in-window variant originates from an input variant at
1-based position `P` with stored coordinate `P - 1`, and the re-emitted VCF
position `stored + 1` is again exactly `P`; conversely, over a sorted variant
list, every input variant strictly inside the window is stored at `P - 1`. -/
theorem vcf_coordinate_round_trip {α : Type} (start e : ℤ) (vars : List (ℤ × α))
    (hsort : vars.Pairwise (fun a b => a.1 ≤ b.1)) :
    (∀ w ∈ varsInWindow start e vars,
      ∃ v ∈ vars, w.1 = v.1 - 1 ∧ start < v.1 ∧ v.1 < e ∧ writeVcfPos w.1 = v.1) ∧
    (∀ v ∈ vars, start < v.1 → v.1 < e →
      (v.1 - 1, v.2) ∈ varsInWindow start e vars) := by
  induction vars with
  | nil => constructor <;> simp [varsInWindow]
  | cons hd tl ih =>
    obtain ⟨ih1, ih2⟩ := ih (List.Pairwise.sublist (List.sublist_cons_self hd tl) hsort)
    constructor
    · intro w hw
      simp only [varsInWindow] at hw
      by_cases hbreak : hd.1 ≥ e
      · rw [if_pos hbreak] at hw
        by_cases hin : start < hd.1 ∧ hd.1 < e
        · omega
        · rw [if_neg hin] at hw
          cases hw
      · rw [if_neg hbreak] at hw
        rcases List.mem_append.mp hw with hl | hr
        · by_cases hin : start < hd.1 ∧ hd.1 < e
          · rw [if_pos hin] at hl
            rcases List.mem_singleton.mp hl with rfl
            exact ⟨hd, List.mem_cons_self hd tl, rfl, hin.1, hin.2,
              by unfold writeVcfPos; omega⟩
          · rw [if_neg hin] at hl
            cases hl
        · obtain ⟨v, hv, hw1, hv1, hv2, hv3⟩ := ih1 w hr
          exact ⟨v, List.mem_cons_of_mem hd hv, hw1, hv1, hv2, hv3⟩
    · intro v hv h1 h2
      rcases List.mem_cons.mp hv with rfl | htl
      · have hbreak : ¬ v.1 ≥ e := by omega
        simp only [varsInWindow]
        rw [if_neg hbreak, if_pos ⟨h1, h2⟩]
        exact List.mem_append_left _ (List.mem_singleton.mpr rfl)
      · have hhd : hd.1 ≤ v.1 := (List.pairwise_cons.mp hsort).1 v htl
        have hbreak : ¬ hd.1 ≥ e := by omega
        simp only [varsInWindow]
        rw [if_neg hbreak]
        exact List.mem_append_right _ (ih2 v htl h1 h2)

/-- C9 witness: a variant at 1-based position 3 strictly inside window (0, 10)
is stored at coordinate 2 and re-emitted at position 3. -/
theorem vcf_coordinate_round_trip_witness :
    (((3 : ℤ), ()) :: []).Pairwise (fun a b => a.1 ≤ b.1) ∧
    (((2 : ℤ), ()) ∈ varsInWindow 0 10 [((3 : ℤ), ())] ∧ writeVcfPos 2 = 3) := by
  refine ⟨by simp, ?_, rfl⟩
  have h := (vcf_coordinate_round_trip 0 10 [((3 : ℤ), ())] (by simp)).2
    ((3 : ℤ), ()) (List.mem_singleton.mpr rfl) (by norm_num) (by norm_num)
  simpa using h

/-! ## Input variant pruning (genReads.py lines 376-404) -/

/-- Allowed nucleotide alphabet, genReads.py line 263. -/
def ALLOWED_NUCL : List Char := ['A', 'C', 'G', 'T']

/-- One parsed input variant: 1-based VCF position `n[0]`, reference allele
`n[1]`, alternate alleles `n[2]` (a list of allele strings). -/
structure InputVariant where
  pos : ℕ
  ref : List Char
  alts : List (List Char)
  deriving DecidableEq

/-- The three rejection reasons counted by `nSkipped`, in check order. -/
inductive RejectReason
  | refMismatch
  | overlapsN
  | badChar
  deriving DecidableEq

/-- The per-variant validity checks of genReads.py lines 383-398:
`rseq = refSequence[pos-1 : pos-1+len(ref)]` (VCF to array coordinates),
first `rseq != ref`, then `'N' in rseq`, then any non-ACGT character in any
alt allele.  Returns the rejection reason, or `none` for a valid variant. -/
def classifyVariant (refSeq : List Char) (v : InputVariant) : Option RejectReason :=
  let rseq := (refSeq.drop (v.pos - 1)).take v.ref.length
  let anyBadChr := v.alts.flatten.any (fun c => !(ALLOWED_NUCL.contains c))
  if rseq ≠ v.ref then some RejectReason.refMismatch
  else if rseq.contains 'N' then some RejectReason.overlapsN
  else if anyBadChr then some RejectReason.badChar
  else none

/-- The pruning loop of genReads.py lines 381-398: valid variants are kept
in order, rejected ones are tallied into the `nSkipped` triple
`(ref mismatch, overlaps N, bad character)`. -/
def pruneVariants (refSeq : List Char) : List InputVariant → List InputVariant × ℕ × ℕ × ℕ
  | [] => ([], 0, 0, 0)
  | v :: rest =>
    let r := pruneVariants refSeq rest
    match classifyVariant refSeq v with
    | some RejectReason.refMismatch => (r.1, r.2.1 + 1, r.2.2.1, r.2.2.2)
    | some RejectReason.overlapsN => (r.1, r.2.1, r.2.2.1 + 1, r.2.2.2)
    | some RejectReason.badChar => (r.1, r.2.1, r.2.2.1, r.2.2.2 + 1)
    | none => (v :: r.1, r.2.1, r.2.2.1, r.2.2.2)

/-- Every variant satisfies exactly one of the four classification outcomes,
so the three rejection buckets and the valid bucket partition the input. -/
theorem classifyVariant_partition (refSeq : List Char) (l : List InputVariant) :
    (l.filter (fun v => classifyVariant refSeq v = some RejectReason.refMismatch)).length +
      (l.filter (fun v => classifyVariant refSeq v = some RejectReason.overlapsN)).length +
      (l.filter (fun v => classifyVariant refSeq v = some RejectReason.badChar)).length +
      (l.filter (fun v => classifyVariant refSeq v = none)).length = l.length := by
  induction l with
  | nil => rfl
  | cons hd tl ih =>
    rcases hcl : classifyVariant refSeq hd with _ | reason
    · simp [List.filter_cons, hcl]
      omega
    · cases reason <;>
        · simp [List.filter_cons, hcl]
          omega

/-- C5: a variant whose reference allele does not match the reference slice is
classified under the ref-mismatch reason and never retained; each skip counter
counts exactly the variants rejected for its reason, the retained list is
exactly the variants passing all three checks, and every variant lands in
exactly one bucket (counters plus retained sum to the input length). -/
theorem pruneVariants_spec (refSeq : List Char) (vars : List InputVariant) :
    (∀ v ∈ vars, (refSeq.drop (v.pos - 1)).take v.ref.length ≠ v.ref →
      classifyVariant refSeq v = some RejectReason.refMismatch ∧
        v ∉ (pruneVariants refSeq vars).1) ∧
    (pruneVariants refSeq vars).2.1 =
      (vars.filter (fun v => classifyVariant refSeq v = some RejectReason.refMismatch)).length ∧
    (pruneVariants refSeq vars).2.2.1 =
      (vars.filter (fun v => classifyVariant refSeq v = some RejectReason.overlapsN)).length ∧
    (pruneVariants refSeq vars).2.2.2 =
      (vars.filter (fun v => classifyVariant refSeq v = some RejectReason.badChar)).length ∧
    (pruneVariants refSeq vars).1 =
      vars.filter (fun v => classifyVariant refSeq v = none) ∧
    (pruneVariants refSeq vars).2.1 + (pruneVariants refSeq vars).2.2.1 +
      (pruneVariants refSeq vars).2.2.2 + (pruneVariants refSeq vars).1.length =
      vars.length := by
  have key : ∀ l : List InputVariant,
      (pruneVariants refSeq l).2.1 =
        (l.filter (fun v => classifyVariant refSeq v = some RejectReason.refMismatch)).length ∧
      (pruneVariants refSeq l).2.2.1 =
        (l.filter (fun v => classifyVariant refSeq v = some RejectReason.overlapsN)).length ∧
      (pruneVariants refSeq l).2.2.2 =
        (l.filter (fun v => classifyVariant refSeq v = some RejectReason.badChar)).length ∧
      (pruneVariants refSeq l).1 =
        l.filter (fun v => classifyVariant refSeq v = none) := by
    intro l
    induction l with
    | nil => exact ⟨rfl, rfl, rfl, rfl⟩
    | cons hd tl ih =>
      obtain ⟨ihA, ihB, ihC, ihD⟩ := ih
      rcases hcl : classifyVariant refSeq hd with _ | reason
      · simp [pruneVariants, hcl, ihA, ihB, ihC, ihD, List.filter_cons]
      · cases reason <;>
          simp [pruneVariants, hcl, ihA, ihB, ihC, ihD, List.filter_cons]
  obtain ⟨kA, kB, kC, kD⟩ := key vars
  refine ⟨?_, kA, kB, kC, kD, ?_⟩
  · intro v hv hne
    have hcl : classifyVariant refSeq v = some RejectReason.refMismatch := by
      unfold classifyVariant
      rw [if_pos hne]
    refine ⟨hcl, ?_⟩
    intro hmem
    rw [kD] at hmem
    have := (List.mem_filter.mp hmem).2
    simp [hcl] at this
  · rw [kA, kB, kC, kD]
    exact classifyVariant_partition refSeq vars

/-- C5 witness: the spec's own example, reference `"ACGTACGT"` with a
candidate variant claiming reference allele `"G"` at 1-based position 2
(true base `'C'`): it is classified ref-mismatch and dropped. -/
theorem pruneVariants_witness :
    (("ACGTACGT".toList.drop (2 - 1)).take 1 ≠ ['G']) ∧
    (classifyVariant "ACGTACGT".toList ⟨2, ['G'], [['A']]⟩ =
        some RejectReason.refMismatch ∧
      (⟨2, ['G'], [['A']]⟩ : InputVariant) ∉
        (pruneVariants "ACGTACGT".toList [⟨2, ['G'], [['A']]⟩]).1) :=
  ⟨by decide,
    (pruneVariants_spec "ACGTACGT".toList [⟨2, ['G'], [['A']]⟩]).1
      ⟨2, ['G'], [['A']]⟩ (List.mem_singleton.mpr rfl) (by decide)⟩

/-! ## Mutation-rate BED parsing (genReads.py lines 305-321) -/

/-- One parsed mutation-rate BED line: `chrom`, integer `pos1`, `pos2`, and
the list of `MUT_RATE=<float>` values matched by the regex in the metadata
column (`mutStr`), each modelled as an exact rational. -/
structure MutBedLine where
  chrom : String
  pos1 : ℤ
  pos2 : ℤ
  mutStr : List ℚ
  deriving DecidableEq

/-- The mutation-rate region state: `mutRateRegions` and `mutRateValues`,
both dictionaries keyed by chromosome (modelled as association lists). -/
structure MutBedState where
  mutRateRegions : List (String × List ℤ)
  mutRateValues : List (String × List ℚ)
  deriving DecidableEq

/-- The clamp `max([0.0, min([float(mutStr[0][9:]), 0.3])])` of
genReads.py line 316. -/
def clampMutRate (r : ℚ) : ℚ := max 0 (min r (3 / 10))

/-- One iteration of the mutation-rate BED loop, genReads.py lines 310-321.
For a qualifying line (a `MUT_RATE` token present and `pos2 - pos1 > 1`) the
code computes the clamped rate, extends `mutRateRegions[myChr]`, and then
calls `mutRateValues.extend(...)` — but `mutRateValues` is a dict, which has
no `extend` method, so Python raises `AttributeError`; the error is modelled
as `Except.error`.  Non-qualifying lines leave the state unchanged. -/
def processMutBedLine (st : MutBedState) (ln : MutBedLine) : Except String MutBedState :=
  if ln.mutStr ≠ [] ∧ ln.pos2 - ln.pos1 > 1 then
    Except.error "AttributeError: dict object has no attribute extend"
  else Except.ok st

/-- The whole mutation-rate BED parsing loop over the parsed lines, starting
from the empty dictionaries of genReads.py lines 306-307. -/
def parseMutBed (lines : List MutBedLine) : Except String MutBedState :=
  lines.foldlM processMutBedLine ⟨[], []⟩

/-- C6 (code bug): parsing a mutation-rate BED whose single line carries a
`MUT_RATE=0.1;` token over a region of length 100 does not succeed and
records nothing — the loop raises on its first qualifying line — while a
file with only non-qualifying lines (no token, or region length at most 1)
parses to the empty table. -/
theorem parseMutBed_crashes_on_qualifying_line :
    parseMutBed [⟨"chr1", 0, 100, [1 / 10]⟩] =
      Except.error "AttributeError: dict object has no attribute extend" ∧
    parseMutBed [⟨"chr1", 0, 100, []⟩, ⟨"chr1", 0, 1, [1 / 10]⟩] =
      Except.ok ⟨[], []⟩ := by
  constructor <;> rfl

/-! ## merge_temp_fastqs (output_file_writer.py lines 184-284) -/

/-- The paired write loop of `merge_temp_fastqs` (lines 262-273): for each
shuffled paired key, the read looked up under the first key is written to the
first stream, the read under the second key to the second stream; `wrote_r2`
becomes true on the first iteration.  `r1get`/`r2get` abstract the
`fastq_index_dict` lookups. -/
def writePairedLoop (r1get r2get : String → String) :
    List (String × String) → List String × List String × Bool
  | [] => ([], [], false)
  | k :: rest =>
    let r := writePairedLoop r1get r2get rest
    (r1get k.1 :: r.1, r2get k.2 :: r.2.1, true)

/-- `merge_temp_fastqs` record flow (lines 249-284): all shuffled paired
records are written first (read 1 to stream 1, its mate to stream 2), then
all shuffled singleton records are appended to stream 1 only; the second
output file is deleted exactly when the paired loop never ran.  Returns
(stream-1 records, stream-2 records, second-file-deleted). -/
def merge_temp_fastqs (r1get r2get sget : String → String)
    (shuffledPaired : List (String × String)) (shuffledSingles : List String) :
    List String × List String × Bool :=
  let pairedOut := writePairedLoop r1get r2get shuffledPaired
  (pairedOut.1 ++ shuffledSingles.map sget, pairedOut.2.1, !pairedOut.2.2)

/-- The paired loop writes exactly the two mapped projections and reports
`wrote_r2` exactly when its input is non-empty. -/
theorem writePairedLoop_eq (r1get r2get : String → String) :
    ∀ l : List (String × String),
      writePairedLoop r1get r2get l =
        (l.map (fun k => r1get k.1), l.map (fun k => r2get k.2), !l.isEmpty) := by
  intro l
  induction l with
  | nil => rfl
  | cons k rest ih =>
    simp [writePairedLoop, ih]

/-- C7: merging `N` paired and `M` singleton records through any shuffle
(permutation) writes `N + M` entries to stream 1 (`N` paired read-1 records
then `M` singletons) and `N` to stream 2, mates aligned index-for-index; the
combined output is a permutation of all input records (no loss, no
duplication); and the second output file is deleted exactly when there were
zero paired records. -/
theorem merge_temp_fastqs_spec (r1get r2get sget : String → String)
    (paired shufP : List (String × String)) (singles shufS : List String)
    (hp : shufP.Perm paired) (hs : shufS.Perm singles) :
    (merge_temp_fastqs r1get r2get sget shufP shufS).1.length =
      paired.length + singles.length ∧
    (merge_temp_fastqs r1get r2get sget shufP shufS).2.1.length = paired.length ∧
    (∀ i : ℕ, i < shufP.length →
      (merge_temp_fastqs r1get r2get sget shufP shufS).1[i]? =
        shufP[i]?.map (fun k => r1get k.1) ∧
      (merge_temp_fastqs r1get r2get sget shufP shufS).2.1[i]? =
        shufP[i]?.map (fun k => r2get k.2)) ∧
    ((merge_temp_fastqs r1get r2get sget shufP shufS).1 ++
        (merge_temp_fastqs r1get r2get sget shufP shufS).2.1).Perm
      (paired.map (fun k => r1get k.1) ++ paired.map (fun k => r2get k.2) ++
        singles.map sget) ∧
    ((merge_temp_fastqs r1get r2get sget shufP shufS).2.2 = true ↔ paired = []) := by
  have h1 : (merge_temp_fastqs r1get r2get sget shufP shufS).1 =
      shufP.map (fun k => r1get k.1) ++ shufS.map sget := by
    simp [merge_temp_fastqs, writePairedLoop_eq]
  have h2 : (merge_temp_fastqs r1get r2get sget shufP shufS).2.1 =
      shufP.map (fun k => r2get k.2) := by
    simp [merge_temp_fastqs, writePairedLoop_eq]
  have h3 : (merge_temp_fastqs r1get r2get sget shufP shufS).2.2 = shufP.isEmpty := by
    simp [merge_temp_fastqs, writePairedLoop_eq]
  refine ⟨?_, ?_, ?_, ?_, ?_⟩
  · rw [h1]
    simp [hp.length_eq, hs.length_eq]
  · rw [h2]
    simp [hp.length_eq]
  · intro i hi
    constructor
    · rw [h1, List.getElem?_append, if_pos (by simpa using hi), List.getElem?_map]
    · rw [h2, List.getElem?_map]
  · rw [h1, h2, List.append_assoc]
    refine List.Perm.trans (List.Perm.append_left _ List.perm_append_comm) ?_
    rw [← List.append_assoc]
    exact List.Perm.append (List.Perm.append (hp.map _) (hp.map _)) (hs.map _)
  · rw [h3, List.isEmpty_iff]
    constructor
    · intro h
      subst h
      exact List.perm_nil.mp hp.symm
    · intro h
      subst h
      exact List.perm_nil.mp hp

/-- C7 witness: one paired record and one singleton, identity shuffle: stream 1
holds the paired read 1 then the singleton, stream 2 holds the mate, and the
second file is not deleted. -/
theorem merge_temp_fastqs_witness :
    ([(("a" : String), ("b" : String))].Perm [("a", "b")] ∧
      ([("s" : String)]).Perm ["s"]) ∧
    (merge_temp_fastqs id id id [("a", "b")] ["s"]).1.length = 1 + 1 ∧
    ((merge_temp_fastqs id id id [("a", "b")] ["s"]).2.2 = true ↔
      ([(("a" : String), ("b" : String))] : List (String × String)) = []) := by
  have h := merge_temp_fastqs_spec id id id [("a", "b")] [("a", "b")] ["s"] ["s"]
    (List.Perm.refl _) (List.Perm.refl _)
  exact ⟨⟨List.Perm.refl _, List.Perm.refl _⟩, by simpa using h.1, h.2.2.2.2⟩

/-! ## Unmapped-read bucketing and ordering (genReads.py lines 637-643, 725-733) -/

/-- One sampled read (or read pair): its base name and the per-mate
`isUnmapped` flags (`myReadData` has one entry per mate). -/
structure SampledRead where
  name : String
  mates : List Bool
  deriving DecidableEq

/-- The in-loop BAM writes of genReads.py lines 645-679 (restricted to the
flag/name data): a mapped single-end read is written with flag 0; a fully
mapped pair with 99/147; a pair with exactly one unmapped mate with 105/149
or 101/153; a fully unmapped read (or pair) is not written inline.  Any
other mate count is the fatal-error path (no write). -/
def inlineWrites (r : SampledRead) : List (String × ℕ) :=
  match r.mates with
  | [u1] => if u1 = false then [(r.name ++ "/1", 0)] else []
  | [u1, u2] =>
    if u1 = false ∧ u2 = false then
      [(r.name ++ "/1", 99), (r.name ++ "/2", 147)]
    else if u1 = false ∧ u2 = true then
      [(r.name ++ "/1", 105), (r.name ++ "/2", 149)]
    else if u1 = true ∧ u2 = false then
      [(r.name ++ "/1", 101), (r.name ++ "/2", 153)]
    else []
  | _ => []

/-- The unmapped-record queueing of genReads.py lines 637-643: when every
mate is unmapped, the read is appended to `unmapped_records` with flags
109/157 (paired) or 4 (single-end). -/
def queuedWrites (pairedEnd : Bool) (r : SampledRead) : List (String × ℕ) :=
  if r.mates.all (fun b => b) then
    if pairedEnd then [(r.name ++ "/1", 109), (r.name ++ "/2", 157)]
    else [(r.name ++ "/1", 4)]
  else []

/-- One iteration of the sampling loop, threading the written-records list
and the `unmapped_records` list. -/
def processRead (pairedEnd : Bool) (st : List (String × ℕ) × List (String × ℕ))
    (r : SampledRead) : List (String × ℕ) × List (String × ℕ) :=
  (st.1 ++ inlineWrites r, st.2 ++ queuedWrites pairedEnd r)

/-- Final BAM record order (genReads.py main loop plus lines 725-733): the
records written during the sampling loop, followed by the queued unmapped
records. -/
def bamRecordOrder (pairedEnd : Bool) (reads : List SampledRead) : List (String × ℕ) :=
  let st := reads.foldl (processRead pairedEnd) ([], [])
  st.1 ++ st.2

/-- The sampling-loop fold accumulates the inline writes and queued unmapped
records of every read, in read order. -/
theorem foldl_processRead (pairedEnd : Bool) :
    ∀ (reads : List SampledRead) (w q : List (String × ℕ)),
      reads.foldl (processRead pairedEnd) (w, q) =
        (w ++ reads.flatMap inlineWrites,
          q ++ reads.flatMap (queuedWrites pairedEnd)) := by
  intro reads
  induction reads with
  | nil => intro w q; simp
  | cons hd tl ih =>
    intro w q
    simp only [List.foldl_cons, processRead, List.flatMap_cons]
    rw [ih]
    simp

/-- C8: the final BAM record stream is exactly all inline (mapped) records
followed by all queued unmapped records; a fully unmapped read is queued with
flags 109/157 (paired) or 4 (single-end) and writes nothing inline; inline
records never carry an unmapped flag and queued records always do, so no
mapped record follows an unmapped one. -/
theorem bam_unmapped_ordering (pairedEnd : Bool) (reads : List SampledRead) :
    bamRecordOrder pairedEnd reads =
      reads.flatMap inlineWrites ++ reads.flatMap (queuedWrites pairedEnd) ∧
    (∀ r ∈ reads, r.mates.all (fun b => b) = true →
      queuedWrites pairedEnd r =
        (if pairedEnd then [(r.name ++ "/1", 109), (r.name ++ "/2", 157)]
         else [(r.name ++ "/1", 4)]) ∧ inlineWrites r = []) ∧
    (∀ p ∈ reads.flatMap inlineWrites, p.2 ∉ ([109, 157, 4] : List ℕ)) ∧
    (∀ p ∈ reads.flatMap (queuedWrites pairedEnd), p.2 ∈ ([109, 157, 4] : List ℕ)) := by
  refine ⟨?_, ?_, ?_, ?_⟩
  · unfold bamRecordOrder
    rw [foldl_processRead]
    simp
  · intro r hr hall
    refine ⟨by simp [queuedWrites, hall], ?_⟩
    obtain ⟨nm, mates⟩ := r
    simp only at hall
    rcases mates with _ | ⟨u1, _ | ⟨u2, rest⟩⟩
    · simp [inlineWrites]
    · simp at hall
      simp [inlineWrites, hall]
    · simp at hall
      rcases rest with _ | ⟨u3, rest2⟩
      · simp [inlineWrites, hall.1, hall.2.1]
      · simp [inlineWrites]
  · intro p hpmem
    obtain ⟨r, _, hpr⟩ := List.mem_flatMap.mp hpmem
    obtain ⟨nm, mates⟩ := r
    rcases mates with _ | ⟨u1, _ | ⟨u2, rest⟩⟩
    · simp [inlineWrites] at hpr
    · rcases u1 <;> simp [inlineWrites] at hpr
      simp [hpr]
    · rcases rest with _ | ⟨u3, rest2⟩
      · rcases u1 <;> rcases u2 <;> simp [inlineWrites] at hpr <;>
          rcases hpr with h1 | h2 <;> first | simp [h1] | simp [h2]
      · simp [inlineWrites] at hpr
  · intro p hpmem
    obtain ⟨r, _, hpr⟩ := List.mem_flatMap.mp hpmem
    unfold queuedWrites at hpr
    by_cases hall : r.mates.all (fun b => b)
    · rw [if_pos hall] at hpr
      rcases pairedEnd
      · simp at hpr
        simp [hpr]
      · simp at hpr
        rcases hpr with h1 | h2
        · simp [h1]
        · simp [h2]
    · rw [if_neg hall] at hpr
      cases hpr

/-- C8 witness: one fully unmapped pair and one mapped pair in paired-end
mode: output is the mapped 99/147 records first, then the queued 109/157
records. -/
theorem bam_unmapped_ordering_witness :
    bamRecordOrder true [⟨"n", [true, true]⟩, ⟨"m", [false, false]⟩] =
      [("m/1", 99), ("m/2", 147), ("n/1", 109), ("n/2", 157)] := by
  rw [(bam_unmapped_ordering true [⟨"n", [true, true]⟩, ⟨"m", [false, false]⟩]).1]
  rfl

/-! ## Output file set and the dummy-path guard (output_file_writer.py lines 76-131) -/

/-- A Python value appearing in `files_to_write`: either a `pathlib.Path`
(carrying its rendered path string) or a plain `str`.  In Python, comparing a
`Path` with a `str` by `==`/`!=` never finds them equal, whatever the text. -/
inductive PyVal
  | path (s : String)
  | strv (s : String)
  deriving DecidableEq

/-- Python `==` between the two runtime types: `Path == Path` and
`str == str` compare contents; a `Path` never equals a `str`. -/
def pyEq : PyVal → PyVal → Bool
  | PyVal.path a, PyVal.path b => a == b
  | PyVal.strv a, PyVal.strv b => a == b
  | _, _ => false

/-- The `options` fields consumed by `OutputFileWriter.__init__`. -/
structure WriterOptions where
  produce_fastq : Bool
  produce_fasta : Bool
  produce_bam : Bool
  produce_vcf : Bool
  paired_ended : Bool
  ploidy : ℕ
  outputParent : String
  outputStem : String

/-- `options.output.parent / name`. -/
def joinPath (parent name : String) : String := parent ++ "/" ++ name

/-- The `files_to_write` list built by `OutputFileWriter.__init__`
(output_file_writer.py lines 101-127): FASTA paths per ploid, the paired or
single FASTQ paths (the single-ended branch registers
`options.output.parent / "dummy.fastq.gz"` as the second FASTQ), the golden
BAM and the golden VCF.  Every element is a `Path` object. -/
def files_to_write (o : WriterOptions) : List PyVal :=
  (if o.produce_fasta then
    (if o.ploidy > 1 then
      (List.range o.ploidy).map (fun i =>
        PyVal.path (joinPath o.outputParent (o.outputStem ++ "_ploid" ++ toString (i + 1) ++ ".fasta.gz")))
    else [PyVal.path (joinPath o.outputParent (o.outputStem ++ ".fasta.gz"))])
  else []) ++
  (if o.paired_ended && o.produce_fastq then
    [PyVal.path (joinPath o.outputParent (o.outputStem ++ "_r1.fastq.gz")),
     PyVal.path (joinPath o.outputParent (o.outputStem ++ "_r2.fastq.gz"))]
  else if o.produce_fastq then
    [PyVal.path (joinPath o.outputParent (o.outputStem ++ ".fastq.gz")),
     PyVal.path (joinPath o.outputParent "dummy.fastq.gz")]
  else []) ++
  (if o.produce_bam then [PyVal.path (joinPath o.outputParent (o.outputStem ++ "_golden.bam"))]
   else []) ++
  (if o.produce_vcf then [PyVal.path (joinPath o.outputParent (o.outputStem ++ "_golden.vcf.gz"))]
   else [])

/-- The guard of output_file_writer.py line 130:
`[x for x in self.files_to_write if x != "dummy.fastq.gz"]` — the comparand
is the *string* `"dummy.fastq.gz"`, compared against `Path` elements.
`validate_output_path` is then invoked on each surviving element. -/
def validatedFiles (o : WriterOptions) : List PyVal :=
  (files_to_write o).filter (fun x => !pyEq x (PyVal.strv "dummy.fastq.gz"))

/-- Every element of `files_to_write` is a `Path` object. -/
theorem files_to_write_all_paths (o : WriterOptions) :
    ∀ x ∈ files_to_write o, ∃ s, x = PyVal.path s := by
  intro x hx
  unfold files_to_write at hx
  rcases List.mem_append.mp hx with hx | hvcf
  rcases List.mem_append.mp hx with hx | hbam
  rcases List.mem_append.mp hx with hfa | hfq
  · split_ifs at hfa with hfasta hpl
    · obtain ⟨i, _, rfl⟩ := List.mem_map.mp hfa
      exact ⟨_, rfl⟩
    · rcases List.mem_singleton.mp hfa with rfl
      exact ⟨_, rfl⟩
    · cases hfa
  · split_ifs at hfq
    · rcases List.mem_cons.mp hfq with rfl | hfq2
      · exact ⟨_, rfl⟩
      · rcases List.mem_singleton.mp hfq2 with rfl
        exact ⟨_, rfl⟩
    · rcases List.mem_cons.mp hfq with rfl | hfq2
      · exact ⟨_, rfl⟩
      · rcases List.mem_singleton.mp hfq2 with rfl
        exact ⟨_, rfl⟩
    · cases hfq
  · split_ifs at hbam
    · rcases List.mem_singleton.mp hbam with rfl
      exact ⟨_, rfl⟩
    · cases hbam
  · split_ifs at hvcf
    · rcases List.mem_singleton.mp hvcf with rfl
      exact ⟨_, rfl⟩
    · cases hvcf

/-- C10: in a single-ended FASTQ-producing run, `files_to_write` contains the
`dummy.fastq.gz` path, and the guard excludes nothing (every element is a
`Path`, which Python never equates with the string `"dummy.fastq.gz"`), so
`validate_output_path` is invoked on every element including the dummy. -/
theorem dummy_fastq_validated (o : WriterOptions)
    (hfq : o.produce_fastq = true) (hpe : o.paired_ended = false) :
    PyVal.path (joinPath o.outputParent "dummy.fastq.gz") ∈ files_to_write o ∧
    validatedFiles o = files_to_write o := by
  constructor
  · unfold files_to_write
    refine List.mem_append.mpr (Or.inl (List.mem_append.mpr (Or.inl
      (List.mem_append.mpr (Or.inr ?_)))))
    rw [hpe, hfq]
    simp
  · unfold validatedFiles
    apply List.filter_eq_self.mpr
    intro x hx
    obtain ⟨s, rfl⟩ := files_to_write_all_paths o x hx
    rfl

/-- C10 witness: a concrete single-ended FASTQ run; the dummy path is in the
file list and the validation loop filter removes nothing. -/
theorem dummy_fastq_validated_witness :
    PyVal.path (joinPath "out" "dummy.fastq.gz") ∈
      files_to_write ⟨true, false, false, false, false, 2, "out", "sim"⟩ ∧
    validatedFiles ⟨true, false, false, false, false, 2, "out", "sim"⟩ =
      files_to_write ⟨true, false, false, false, false, 2, "out", "sim"⟩ :=
  dummy_fastq_validated ⟨true, false, false, false, false, 2, "out", "sim"⟩ rfl rfl

/-! ## write_bam_record (output_file_writer.py lines 326-406) -/

/-- Little-endian 4-byte encoding of a non-negative integer, the byte layout
produced by `struct.pack` with a 32-bit format for an in-range value. -/
def le32 (n : ℕ) : List ℕ :=
  [n % 256, n / 256 % 256, n / 65536 % 256, n / 16777216 % 256]

/-- `struct.pack('<i', x)` byte layout for a (possibly negative) 32-bit value:
two's complement, little endian. -/
def le32i (x : ℤ) : List ℕ := le32 (x.emod 4294967296).toNat

/-- Read back a little-endian 32-bit value at byte offset `off`. -/
def readLE32 (bs : List ℕ) (off : ℕ) : ℕ :=
  match bs.drop off with
  | b0 :: b1 :: b2 :: b3 :: _ => b0 + 256 * b1 + 65536 * b2 + 16777216 * b3
  | _ => 0

/-- Reading four little-endian bytes recovers any value below `2^32`. -/
theorem readLE32_le32 (n : ℕ) (rest : List ℕ) (h : n < 4294967296) :
    readLE32 (le32 n ++ rest) 0 = n := by
  simp only [readLE32, le32, List.cons_append, List.nil_append, List.drop_zero]
  omega

/-- Reading at offset 8 skips the first two 4-byte fields. -/
theorem readLE32_at8 (n1 : ℕ) (x : ℤ) (rest : List ℕ) :
    readLE32 (le32 n1 ++ (le32i x ++ rest)) 8 = readLE32 rest 0 := rfl

/-- Reading at offset 12 skips the first three 4-byte fields. -/
theorem readLE32_at12 (n1 : ℕ) (x : ℤ) (n2 : ℕ) (rest : List ℕ) :
    readLE32 (le32 n1 ++ (le32i x ++ (le32 n2 ++ rest))) 12 = readLE32 rest 0 := rfl

/-- Reading at offset 16 skips the first four 4-byte fields. -/
theorem readLE32_at16 (n1 : ℕ) (x : ℤ) (n2 n3 : ℕ) (rest : List ℕ) :
    readLE32 (le32 n1 ++ (le32i x ++ (le32 n2 ++ (le32 n3 ++ rest)))) 16 =
      readLE32 rest 0 := rfl

/-- Reading at offset 20 skips the first five 4-byte fields. -/
theorem readLE32_at20 (n1 : ℕ) (x : ℤ) (n2 n3 n4 : ℕ) (rest : List ℕ) :
    readLE32 (le32 n1 ++ (le32i x ++ (le32 n2 ++ (le32 n3 ++ (le32 n4 ++ rest))))) 20 =
      readLE32 rest 0 := rfl

/-- `CIGAR_PACKED` dictionary (output_file_writer.py line 36); characters
outside the dictionary would raise `KeyError` in Python and are mapped to an
arbitrary value here (the encodings proved below never depend on it). -/
def CIGAR_PACKED : Char → ℕ
  | 'M' => 0 | 'I' => 1 | 'D' => 2 | 'N' => 3 | 'S' => 4
  | 'H' => 5 | 'P' => 6 | '=' => 7 | 'X' => 8 | _ => 0

/-- `SEQ_PACKED` dictionary (output_file_writer.py lines 37-38); same
convention for out-of-dictionary characters as `CIGAR_PACKED`. -/
def SEQ_PACKED : Char → ℕ
  | '=' => 0 | 'A' => 1 | 'C' => 2 | 'M' => 3 | 'G' => 4 | 'R' => 5
  | 'S' => 6 | 'V' => 7 | 'T' => 8 | 'W' => 9 | 'Y' => 10 | 'H' => 11
  | 'K' => 12 | 'D' => 13 | 'B' => 14 | 'N' => 15 | _ => 0

/-- The sequence nibble-packing loop (lines 363-369): two bases per byte,
high nibble first, each capitalized before lookup.  The singleton case only
arises for an odd-length list; the caller always pads to even length first. -/
def encodeSeqPairs : List Char → List ℕ
  | a :: b :: rest =>
    (SEQ_PACKED a.toUpper * 16 + SEQ_PACKED b.toUpper) :: encodeSeqPairs rest
  | [a] => [SEQ_PACKED a.toUpper * 16]
  | [] => []

/-- The packed sequence always occupies `(len + 1) / 2` bytes. -/
theorem encodeSeqPairs_length : ∀ l : List Char,
    (encodeSeqPairs l).length = (l.length + 1) / 2
  | [] => rfl
  | [a] => by simp [encodeSeqPairs]
  | _ :: _ :: rest => by
    simp only [encodeSeqPairs, List.length_cons]
    rw [encodeSeqPairs_length rest]
    omega

/-- Each CIGAR operation contributes exactly four bytes. -/
theorem encodedCig_length (ops : List (ℕ × Char)) :
    (ops.flatMap (fun p => le32 (p.1 * 16 + CIGAR_PACKED p.2))).length = 4 * ops.length := by
  induction ops with
  | nil => rfl
  | cons hd tl ih =>
    have h4 : (le32 (hd.1 * 16 + CIGAR_PACKED hd.2)).length = 4 := rfl
    simp only [List.flatMap_cons, List.length_append, ih, h4, List.length_cons]
    omega

/-- The data of one `Read` object as consumed by `write_bam_record`.  The
`Read` class itself is not part of the sources under scrutiny, so the results
of its accessors are fields here: `mpos` is `read.get_mpos()`, `flag` is
`read.calculate_flags(self.paired)`, `tlen` is `read.get_tlen()`, and
`cigarOps` is the list of (count, letter) pairs obtained from the regex
split of `read.make_cigar()` (lines 341-345).  `name` holds the UTF-8 bytes
of the read name (ASCII in this program, so its length equals
`len(read.name)`), and `read_quality_string` holds the character codes of the
quality string. -/
structure BamRead where
  name : List ℕ
  position : ℕ
  end_point : ℕ
  mapping_quality : ℕ
  read_sequence : List Char
  read_quality_string : List ℕ
  mpos : Option ℤ
  flag : ℕ
  tlen : ℤ
  cigarOps : List (ℕ × Char)

/-- `write_bam_record` (output_file_writer.py lines 326-406) as the byte
string appended to the alignment stream.  `if not mate_position` is true in
Python both for `None` and for position `0`, zeroing next-pos and template
length in either case.  The `<<`/`+` packings are written as `* 2^k + _`;
`reg2bin` is non-negative here (`reg2bin_nonneg`), so `.toNat` is exact. -/
def write_bam_record (contig_id : ℤ) (r : BamRead) : List ℕ :=
  let read_bin := (reg2bin (r.position : ℤ) (r.end_point : ℤ)).toNat
  let cig_ops := r.cigarOps.length
  let np_tl : ℤ × ℤ :=
    match r.mpos with
    | none => (0, 0)
    | some m => if m = 0 then (0, 0) else (m, r.tlen)
  let encoded_cig := r.cigarOps.flatMap (fun p => le32 (p.1 * 16 + CIGAR_PACKED p.2))
  let seq_len := r.read_sequence.length
  let alt_sequence := if seq_len % 2 = 1 then r.read_sequence ++ ['='] else r.read_sequence
  let encoded_seq := encodeSeqPairs alt_sequence
  let encoded_qual := r.read_quality_string.map (fun q => q - 33)
  let block_size := 32 + r.name.length + 1 + encoded_cig.length + encoded_seq.length +
    r.read_quality_string.length
  le32 block_size ++
  le32i contig_id ++
  le32 (r.position + 1) ++
  le32 (read_bin * 65536 + r.mapping_quality * 256 + r.name.length + 1) ++
  le32 (r.flag * 65536 + cig_ops) ++
  le32 seq_len ++
  le32i contig_id ++
  le32i np_tl.1 ++
  le32i np_tl.2 ++
  r.name ++ [0] ++
  encoded_cig ++
  encoded_seq ++
  encoded_qual

/-- C2: the emitted record opens with a little-endian 32-bit block size equal
to `32 + name length + 1 + encoded-CIGAR bytes (4 per op) + encoded-sequence
bytes ((seq length + 1)/2) + quality length`; stores the position as
`position + 1`; packs `(reg2bin(position, end) << 16) | (mapq << 8) |
(name length + 1)` and `(flag << 16) | cigar op count`; stores the original
(unpadded) sequence length even though an odd sequence is padded by one
synthetic base before nibble packing; and ends with the quality string with
each character code lowered by 33. -/
theorem write_bam_record_spec (contig_id : ℤ) (r : BamRead)
    (hbs : 32 + r.name.length + 1 + 4 * r.cigarOps.length +
      (r.read_sequence.length + 1) / 2 + r.read_quality_string.length < 4294967296)
    (hpos : r.position + 1 < 4294967296)
    (hbin : (reg2bin (r.position : ℤ) (r.end_point : ℤ)).toNat < 65536)
    (hmq : r.mapping_quality < 256)
    (hname : r.name.length + 1 < 256)
    (hflag : r.flag < 65536)
    (hcig : r.cigarOps.length < 65536)
    (hseq : r.read_sequence.length < 4294967296) :
    readLE32 (write_bam_record contig_id r) 0 =
      32 + r.name.length + 1 + 4 * r.cigarOps.length +
        (r.read_sequence.length + 1) / 2 + r.read_quality_string.length ∧
    readLE32 (write_bam_record contig_id r) 8 = r.position + 1 ∧
    readLE32 (write_bam_record contig_id r) 12 =
      (reg2bin (r.position : ℤ) (r.end_point : ℤ)).toNat * 65536 +
        r.mapping_quality * 256 + (r.name.length + 1) ∧
    readLE32 (write_bam_record contig_id r) 16 = r.flag * 65536 + r.cigarOps.length ∧
    readLE32 (write_bam_record contig_id r) 20 = r.read_sequence.length ∧
    (encodeSeqPairs (if r.read_sequence.length % 2 = 1 then r.read_sequence ++ ['=']
        else r.read_sequence)).length = (r.read_sequence.length + 1) / 2 ∧
    (∃ pre, write_bam_record contig_id r =
      pre ++ r.read_quality_string.map (fun q => q - 33)) := by
  have hcigl : (r.cigarOps.flatMap (fun p => le32 (p.1 * 16 + CIGAR_PACKED p.2))).length =
      4 * r.cigarOps.length := encodedCig_length r.cigarOps
  have hseql : (encodeSeqPairs (if r.read_sequence.length % 2 = 1 then
      r.read_sequence ++ ['='] else r.read_sequence)).length =
      (r.read_sequence.length + 1) / 2 := by
    by_cases hodd : r.read_sequence.length % 2 = 1
    · rw [if_pos hodd, encodeSeqPairs_length]
      simp only [List.length_append, List.length_cons, List.length_nil]
      omega
    · rw [if_neg hodd, encodeSeqPairs_length]
  refine ⟨?_, ?_, ?_, ?_, ?_, hseql, ?_⟩
  · simp only [write_bam_record, List.append_assoc]
    rw [readLE32_le32 _ _ (by rw [hcigl, hseql]; exact hbs), hcigl, hseql]
  · simp only [write_bam_record, List.append_assoc]
    rw [readLE32_at8, readLE32_le32 _ _ hpos]
  · simp only [write_bam_record, List.append_assoc]
    rw [readLE32_at12, readLE32_le32 _ _ (by omega)]
    omega
  · simp only [write_bam_record, List.append_assoc]
    rw [readLE32_at16, readLE32_le32 _ _ (by omega)]
  · simp only [write_bam_record, List.append_assoc]
    rw [readLE32_at20, readLE32_le32 _ _ hseq]
  · exact ⟨_, rfl⟩

/-- C2 witness: a concrete two-base read with one CIGAR op; all range
hypotheses hold and the decoded header fields match the claimed formulas. -/
theorem write_bam_record_witness :
    readLE32 (write_bam_record 0
      ⟨[114], 100, 102, 70, ['A', 'C'], [53, 54], none, 99, 0, [(2, 'M')]⟩) 0 =
      32 + 1 + 1 + 4 * 1 + (2 + 1) / 2 + 2 ∧
    readLE32 (write_bam_record 0
      ⟨[114], 100, 102, 70, ['A', 'C'], [53, 54], none, 99, 0, [(2, 'M')]⟩) 8 = 100 + 1 :=
  ⟨(write_bam_record_spec 0 _ (by decide) (by decide) (by decide) (by decide)
      (by decide) (by decide) (by decide) (by decide)).1,
    (write_bam_record_spec 0 _ (by decide) (by decide) (by decide) (by decide)
      (by decide) (by decide) (by decide) (by decide)).2.1⟩
